import Mathlib

/-
Shallow embedding of the Monitor repository's core (tasks.js TaskExecutor,
monitor.js DatabaseMonitor, config.js), for checking the natural-language
specification against the code.

JavaScript `Map` objects are modelled as association lists with the exact
`set` / `get` / `delete` semantics (set overwrites in place, get returns an
Option, delete removes the keyed entry).  The filesystem is a total function
from paths to a file state (absent / unreadable / readable content); `fs.rename`
is an explicit update.  Timers are modelled by the truthiness of the stored
interval handle plus an instrumentation event emitted when `setInterval` is
called.  The bounded recursive retry (`executeTask` ↔ `handleTaskFailure`)
is embedded with a fuel parameter; the recursion depth is at most
`retryAttempts + 1 - currentRetries`, so any fuel of at least
`retryAttempts + 1` makes the fuel-exhaustion branch unreachable (the claim
theorems quantify over all sufficient fuels).
-/

namespace Monitor

/-! ### JavaScript `Map` as an association list -/

/-- `Map.set k v`: overwrite in place when the key is present, append otherwise. -/
def mapSet {κ α : Type} [DecidableEq κ] (k : κ) (v : α) : List (κ × α) → List (κ × α)
  | [] => [(k, v)]
  | (k', v') :: rest => if k' = k then (k, v) :: rest else (k', v') :: mapSet k v rest

/-- `Map.get k`: the value stored at `k`, if any. -/
def mapGet? {κ α : Type} [DecidableEq κ] (k : κ) : List (κ × α) → Option α
  | [] => none
  | (k', v) :: rest => if k' = k then some v else mapGet? k rest

/-- `map.get(k) || d`: JavaScript default on a missing key. -/
def mapGetD {κ α : Type} [DecidableEq κ] (k : κ) (d : α) (l : List (κ × α)) : α :=
  (mapGet? k l).getD d

/-- `Map.delete k`: remove the entry stored at `k`. -/
def mapDelete {κ α : Type} [DecidableEq κ] (k : κ) : List (κ × α) → List (κ × α)
  | [] => []
  | (k', v') :: rest => if k' = k then mapDelete k rest else (k', v') :: mapDelete k rest

/-! ### JavaScript string operations -/

/-- Is the first list a prefix of the second (computably)? -/
def hasPfx : List Char → List Char → Bool
  | [], _ => true
  | _ :: _, [] => false
  | a :: as, b :: bs => a == b && hasPfx as bs

/-- Does the needle occur as a contiguous sublist of the haystack? -/
def hasSub (needle : List Char) : List Char → Bool
  | [] => hasPfx needle []
  | b :: rest => hasPfx needle (b :: rest) || hasSub needle rest

/-- JavaScript `hay.includes(needle)`. -/
def strIncludes (hay needle : String) : Bool :=
  hasSub needle.toList hay.toList

/-- JavaScript `s.substring(a, b)` (within-range use only, as in the source). -/
def jsSubstring (s : String) (a b : Nat) : String :=
  String.mk ((s.toList.drop a).take (b - a))

/-- `path.join(a, b)` specialised to the forward-slash joining the source relies on. -/
def pathJoin (a b : String) : String := a ++ "/" ++ b

/-! ### Filesystem model -/

/-- State of one path: no file, a file whose read fails, or a readable file. -/
inductive FileState : Type where
  | absent
  | unreadable
  | readable (content : String)
deriving DecidableEq

/-- `fileExists` (tasks.js): `fs.access` succeeds exactly when the path has a file. -/
def fileExists (fs : String → FileState) (p : String) : Bool :=
  match fs p with
  | .absent => false
  | _ => true

/-- `fs.rename(src, tgt)`: the target takes the source's file, the source becomes absent. -/
def fsRename (fs : String → FileState) (src tgt : String) : String → FileState :=
  fun p => if p = tgt then fs src else if p = src then .absent else fs p

/-! ### config.js -/

structure TasksConfig where
  retryAttempts : Nat
  retryDelay : Nat
deriving DecidableEq

structure XmlProcessingConfig where
  sourceFolder : String
  cnpjBasePath : String
  processedFolder : String
  checkProcessedInterval : Nat
  processingTimeout : Nat
deriving DecidableEq

/-- `config.tasks` from config.js. -/
def config.tasks : TasksConfig :=
  { retryAttempts := 3, retryDelay := 2000 }

/-- `config.xmlProcessing` from config.js. -/
def config.xmlProcessing : XmlProcessingConfig :=
  { sourceFolder := "./xml/gerados"
    cnpjBasePath := "./xml/cnpj"
    processedFolder := "processados"
    checkProcessedInterval := 30000
    processingTimeout := 600000 }

/-! ### Data model -/

/-- A record fetched from the store (id, chave de acesso, status). -/
structure Record where
  id : Nat
  numero_cte : String
  status : String
deriving DecidableEq

/-- A Watch Entry stored in `processingFiles` (tasks.js `waitForProcessedFile`). -/
structure FileInfo where
  recordId : Nat
  numeroCtE : String
  cnpj : String
  processedPath : String
  startTime : Nat
deriving DecidableEq

/-- Result returned by `executeTask`. -/
structure TaskResult where
  success : Bool
  recordId : Nat
  error : Option String
deriving DecidableEq

/-- Instrumentation events: task attempts, backoff delays, store completion
calls (`apiClient.markAsProcessed`), and `setInterval` timer creation. -/
inductive Event : Type where
  | attempt (recordId : Nat)
  | delayMs (ms : Nat)
  | markCompleted (recordId : Nat)
  | timerStarted
deriving DecidableEq

/-- The store client (database.js ApiClient) at its interface: whether
`markAsProcessed(id)` succeeds or throws. -/
structure ApiClientM where
  markOk : Nat → Bool

/-- The TaskExecutor's mutable state, plus the filesystem it acts on.
`apiClient` is an `Option` because the field is only ever used via
`this.apiClient`, and the constructor never assigns it. -/
structure ExecState where
  runningTasks : List (String × (Nat × Nat))
  processingFiles : List (Nat × FileInfo)
  retryCounters : List (String × Nat)
  processedFileInterval : Bool
  apiClient : Option ApiClientM
  fs : String → FileState

/-- `new TaskExecutor()`: empty maps, no watch timer, and — as in the source,
where neither the constructor nor any caller assigns it — no `apiClient`. -/
def initialExecState (fs : String → FileState) : ExecState :=
  { runningTasks := []
    processingFiles := []
    retryCounters := []
    processedFileInterval := false
    apiClient := none
    fs := fs }

/-! ### TaskExecutor (tasks.js) -/

/-- `extractCNPJFromChaveAcesso`: 44-character key, characters 6–19 must be
14 digits (`/^\d{14}$/`); returns `none` on any violation. -/
def extractCNPJFromChaveAcesso (chaveAcesso : String) : Option String :=
  if chaveAcesso.length = 44 then
    let cnpj := jsSubstring chaveAcesso 6 20
    if cnpj.length == 14 && cnpj.toList.all Char.isDigit then some cnpj else none
  else
    none

/-- The source path `path.join(config.xmlProcessing.sourceFolder, numero_cte + ".xml")`. -/
def sourcePathFor (r : Record) : String :=
  pathJoin config.xmlProcessing.sourceFolder (r.numero_cte ++ ".xml")

/-- `moveExistingXMLToCNPJFolder`: throw if the source XML is absent, else move
it into `<cnpjBasePath>/<cnpj>/` (directory creation has no observable effect
in the path-to-file-state model). -/
def moveExistingXMLToCNPJFolder (s : ExecState) (r : Record) (cnpj : String) :
    Except String ExecState :=
  let fileName := r.numero_cte ++ ".xml"
  let sourcePath := sourcePathFor r
  if fileExists s.fs sourcePath then
    let cnpjFolder := pathJoin config.xmlProcessing.cnpjBasePath cnpj
    let targetPath := pathJoin cnpjFolder fileName
    .ok { s with fs := fsRename s.fs sourcePath targetPath }
  else
    .error ("Arquivo XML não encontrado: " ++ sourcePath)

/-- `startProcessedFileMonitoring`: if the interval handle is already set,
return; otherwise call `setInterval` (one `timerStarted` event) and store
the handle. -/
def startProcessedFileMonitoring (s : ExecState) : ExecState × List Event :=
  if s.processedFileInterval then
    (s, [])
  else
    ({ s with processedFileInterval := true }, [Event.timerStarted])

/-- The expected processed artifact path
`<cnpjBasePath>/<cnpj>/<processedFolder>/<numero_cte>.xml`. -/
def processedPathFor (r : Record) (cnpj : String) : String :=
  pathJoin (pathJoin (pathJoin config.xmlProcessing.cnpjBasePath cnpj)
    config.xmlProcessing.processedFolder) (r.numero_cte ++ ".xml")

/-- `waitForProcessedFile`: register the Watch Entry under `record.id`
(`Map.set`, so re-registration overwrites) and idempotently start the scan
timer. -/
def waitForProcessedFile (s : ExecState) (r : Record) (cnpj : String) (now : Nat) :
    ExecState :=
  let s₁ := { s with
    processingFiles := mapSet r.id
      { recordId := r.id
        numeroCtE := r.numero_cte
        cnpj := cnpj
        processedPath := processedPathFor r cnpj
        startTime := now } s.processingFiles }
  (startProcessedFileMonitoring s₁).1

/-- `handlePendingDocument`: move the XML, then register the watch. -/
def handlePendingDocument (s : ExecState) (r : Record) (cnpj : String) (now : Nat) :
    Except String ExecState :=
  match moveExistingXMLToCNPJFolder s r cnpj with
  | .error e => .error e
  | .ok s₁ => .ok (waitForProcessedFile s₁ r cnpj now)

/-- `processRecord`: extract the CNPJ (throwing on a malformed key), then
dispatch on status — only `"pendente"` does work, any other status is a
logged no-op success. -/
def processRecord (s : ExecState) (r : Record) (now : Nat) : Except String ExecState :=
  match extractCNPJFromChaveAcesso r.numero_cte with
  | none => .error ("Não foi possível extrair CNPJ da chave de acesso: " ++ r.numero_cte)
  | some cnpj =>
    if r.status = "pendente" then
      handlePendingDocument s r cnpj now
    else
      .ok s

/-- `executeSpecificTasks`: a logged no-op in the source. -/
def executeSpecificTasks (s : ExecState) (_r : Record) : Except String ExecState :=
  .ok s

/-- What `handleTaskFailure` decides: retry with the updated state (after a
backoff delay) or give up with a failure result. -/
inductive FailureStep : Type where
  | retryWith (s : ExecState)
  | giveUp (res : TaskResult) (s : ExecState)

/-- The retry-counter key `retry_${record.id}`. -/
def retryKey (id : Nat) : String := "retry_" ++ toString id

/-- The bookkeeping task id `task_${record.id}_${Date.now()}`. -/
def taskIdFor (r : Record) (now : Nat) : String :=
  "task_" ++ toString r.id ++ "_" ++ toString now

/-- `handleTaskFailure` (tasks.js): read the counter (`|| 0`); below the
ceiling, increment it and wait `retryDelay` before the recursive
`executeTask` call (performed by the caller); at/above the ceiling, delete
the counter and return `success:false`. -/
def handleTaskFailure (s : ExecState) (r : Record) (msg : String) :
    FailureStep × List Event :=
  let key := retryKey r.id
  let currentRetries := mapGetD key 0 s.retryCounters
  if currentRetries < config.tasks.retryAttempts then
    (.retryWith { s with retryCounters := mapSet key (currentRetries + 1) s.retryCounters },
     [Event.delayMs config.tasks.retryDelay])
  else
    (.giveUp { success := false, recordId := r.id, error := some msg }
      { s with retryCounters := mapDelete key s.retryCounters }, [])

/-- `executeTask` (tasks.js): register the bookkeeping entry, run
`processRecord` then `executeSpecificTasks`, delete the bookkeeping entry,
and on an exception delegate to `handleTaskFailure`, recursing on retry.
The fuel bounds the recursion; depth never exceeds
`retryAttempts + 1 - currentRetries`, so the fuel-exhaustion branch is
unreachable for any fuel ≥ `retryAttempts + 1`. -/
def executeTask : Nat → ExecState → Record → Nat → TaskResult × ExecState × List Event
  | 0, s, r, _now =>
    ({ success := false, recordId := r.id, error := some "fuel" }, s, [])
  | Nat.succ fuel, s, r, now =>
    let taskId := taskIdFor r now
    let s₁ := { s with runningTasks := mapSet taskId (r.id, now) s.runningTasks }
    match processRecord s₁ r now with
    | .ok s₂ =>
      match executeSpecificTasks s₂ r with
      | .ok s₃ =>
        ({ success := true, recordId := r.id, error := none },
         { s₃ with runningTasks := mapDelete taskId s₃.runningTasks },
         [Event.attempt r.id])
      | .error msg =>
        let sE := { s₂ with runningTasks := mapDelete taskId s₂.runningTasks }
        match handleTaskFailure sE r msg with
        | (.retryWith s₄, ev) =>
          let rec' := executeTask fuel s₄ r now
          (rec'.1, rec'.2.1, Event.attempt r.id :: ev ++ rec'.2.2)
        | (.giveUp res s₄, ev) => (res, s₄, Event.attempt r.id :: ev)
    | .error msg =>
      let sE := { s₁ with runningTasks := mapDelete taskId s₁.runningTasks }
      match handleTaskFailure sE r msg with
      | (.retryWith s₄, ev) =>
        let rec' := executeTask fuel s₄ r now
        (rec'.1, rec'.2.1, Event.attempt r.id :: ev ++ rec'.2.2)
      | (.giveUp res s₄, ev) => (res, s₄, Event.attempt r.id :: ev)

/-- `checkIfAuthorized` content heuristic: the `<cStat>100</cStat>` tag or the
literal substring `autorizado` / `Autorizado`. -/
def isAuthorizedContent (content : String) : Bool :=
  strIncludes content "<cStat>100</cStat>" ||
  strIncludes content "autorizado" ||
  strIncludes content "Autorizado"

/-- `checkIfAuthorized`: read the file and test the heuristic; any read
failure is caught and yields `false`. -/
def checkIfAuthorized (fs : String → FileState) (p : String) : Bool :=
  match fs p with
  | .readable content => isAuthorizedContent content
  | _ => false

/-- `markCTEAsEmitted`: `this.apiClient.markAsProcessed(recordId)`.  With no
`apiClient` (the constructor state) the member access itself throws, before
any store call is made; with a client, the call is made (one `markCompleted`
event) and may still fail at the transport. -/
def markCTEAsEmitted (client : Option ApiClientM) (recordId : Nat) :
    Except String Unit × List Event :=
  match client with
  | none => (.error "TypeError: this.apiClient is undefined", [])
  | some c =>
    if c.markOk recordId then (.ok (), [Event.markCompleted recordId])
    else (.error "HTTP error", [Event.markCompleted recordId])

/-- One Watch Entry of the `checkProcessedFiles` loop body. Returns whether
the entry was deleted, and the store-call events.  Errors (including a
failing `markCTEAsEmitted`) are caught by the per-entry try/catch, leaving
the entry in place. -/
def checkProcessedFilesEntry (client : Option ApiClientM) (fs : String → FileState)
    (now : Nat) (recordId : Nat) (fi : FileInfo) : Bool × List Event :=
  if fileExists fs fi.processedPath then
    if checkIfAuthorized fs fi.processedPath then
      match markCTEAsEmitted client recordId with
      | (.ok _, ev) => (true, ev)
      | (.error _, ev) => (false, ev)
    else
      (false, [])
  else
    if now - fi.startTime > config.xmlProcessing.processingTimeout then
      (true, [])
    else
      (false, [])

/-- The `for (const [recordId, fileInfo] of this.processingFiles.entries())`
loop of `checkProcessedFiles`, in iteration order. -/
def checkFilesLoop (client : Option ApiClientM) (fs : String → FileState) (now : Nat) :
    List (Nat × FileInfo) → List (Nat × FileInfo) × List Event
  | [] => ([], [])
  | (rid, fi) :: rest =>
    let one := checkProcessedFilesEntry client fs now rid fi
    let rest' := checkFilesLoop client fs now rest
    (if one.1 then rest'.1 else (rid, fi) :: rest'.1, one.2 ++ rest'.2)

/-- One scan tick of `checkProcessedFiles` over the executor state. -/
def checkProcessedFiles (s : ExecState) (now : Nat) : ExecState × List Event :=
  let res := checkFilesLoop s.apiClient s.fs now s.processingFiles
  ({ s with processingFiles := res.1 }, res.2)

/-! ### DatabaseMonitor (monitor.js) -/

/-- `DatabaseMonitor.processRecord`: run `executeTask`; on a `success:true`
result call `apiClient.markAsProcessed(record.id)` and (only if that call
did not throw) increment `processedCount`; everything else is caught and
logged. -/
def monitorProcessRecord (fuel : Nat) (client : ApiClientM) (count : Nat)
    (es : ExecState) (r : Record) (now : Nat) : Nat × ExecState × List Event :=
  let er := executeTask fuel es r now
  if er.1.success then
    if client.markOk r.id then
      (count + 1, er.2.1, er.2.2 ++ [Event.markCompleted r.id])
    else
      (count, er.2.1, er.2.2 ++ [Event.markCompleted r.id])
  else
    (count, er.2.1, er.2.2)

/-- The per-tick loop of `DatabaseMonitor.checkDatabase`: records strictly in
fetch order, each through its own `processRecord` call. -/
def checkDatabase (fuel : Nat) (client : ApiClientM) (count : Nat) (es : ExecState) :
    List Record → Nat → Nat × ExecState × List Event
  | [], _now => (count, es, [])
  | r :: rest, now =>
    let one := monitorProcessRecord fuel client count es r now
    let rest' := checkDatabase fuel client one.1 one.2.1 rest now
    (rest'.1, rest'.2.1, one.2.2 ++ rest'.2.2)

/-! ### Derived characterisations used in theorem statements -/

/-- The exception `processRecord` raises, as a function of the filesystem and
the record only (it reads no other state): malformed key first, then — for a
pending record — a missing source artifact.  `none` means the attempt
succeeds. -/
def processFailureMsg (fsv : String → FileState) (r : Record) : Option String :=
  match extractCNPJFromChaveAcesso r.numero_cte with
  | none => some ("Não foi possível extrair CNPJ da chave de acesso: " ++ r.numero_cte)
  | some _ =>
    if r.status = "pendente" then
      if fileExists fsv (sourcePathFor r) then none
      else some ("Arquivo XML não encontrado: " ++ sourcePathFor r)
    else
      none

/-- The event trace of a run that fails `n + 1` times and gives up: an
attempt, then `n` times a backoff delay followed by another attempt. -/
def retryTrace (rid : Nat) : Nat → List Event
  | 0 => [Event.attempt rid]
  | n + 1 => Event.attempt rid :: Event.delayMs config.tasks.retryDelay :: retryTrace rid n

/-- The state `handleTaskFailure` hands back for the recursive `executeTask`
call after a failed attempt: bookkeeping entry set and deleted again, retry
counter incremented. -/
def retryState (s : ExecState) (r : Record) (now : Nat) : ExecState :=
  { s with
    runningTasks := mapDelete (taskIdFor r now) (mapSet (taskIdFor r now) (r.id, now) s.runningTasks),
    retryCounters := mapSet (retryKey r.id) (mapGetD (retryKey r.id) 0 s.retryCounters + 1) s.retryCounters }

/-- The Watch Entry `waitForProcessedFile` registers for a record. -/
def watchEntryFor (r : Record) (cnpj : String) (now : Nat) : FileInfo :=
  { recordId := r.id
    numeroCtE := r.numero_cte
    cnpj := cnpj
    processedPath := processedPathFor r cnpj
    startTime := now }

/-- Successes of one tick, re-run compositionally: a record counts when its
`executeTask` (on the state left by its predecessors) reports success and the
monitor's `markAsProcessed` call succeeds. -/
def tickSuccessCount (fuel : Nat) (client : ApiClientM) (es : ExecState) :
    List Record → Nat → Nat
  | [], _now => 0
  | r :: rest, now =>
    let er := executeTask fuel es r now
    (if er.1.success && client.markOk r.id then 1 else 0) +
      tickSuccessCount fuel client er.2.1 rest now

/-! ### Concrete inputs used by witnesses and counterexamples -/

/-- A filesystem with no files at all. -/
def allAbsentFS : String → FileState := fun _ => FileState.absent

/-- A store client whose `markAsProcessed` always succeeds. -/
def wiredClient : ApiClientM := { markOk := fun _ => true }

/-- A pending record with a malformed chave de acesso (14 characters, not 44). -/
def badKeyRecord : Record := { id := 2, numero_cte := "chave_invalida", status := "pendente" }

/-- A well-formed 44-digit chave de acesso. -/
def goodKey : String := "12345678901234567890123456789012345678901234"

/-- Characters 6–19 of `goodKey`. -/
def goodCnpj : String := "78901234567890"

/-- A second well-formed 44-digit chave de acesso. -/
def keyB : String := "55556666777788889999000011112222333344445555"

/-- A pending record with a valid key whose source XML is absent everywhere. -/
def missingXmlRecord : Record := { id := 3, numero_cte := goodKey, status := "pendente" }

/-- A pending record with a valid key, used with a present source XML. -/
def movedRecord : Record := { id := 5, numero_cte := goodKey, status := "pendente" }

/-- A filesystem holding exactly `movedRecord`'s source XML. -/
def presentSourceFS : String → FileState :=
  fun p => if p = sourcePathFor movedRecord then FileState.readable "conteudo" else FileState.absent

/-- An executor state carrying a left-over retry count of 2 for record 5,
as produced by earlier failed attempts of the same record. -/
def seededCounterState : ExecState :=
  { initialExecState presentSourceFS with retryCounters := [(retryKey 5, 2)] }

/-- A Watch Entry for record 7. -/
def entry7 : FileInfo :=
  { recordId := 7, numeroCtE := "cte7", cnpj := "00000000000000"
    processedPath := "p7", startTime := 0 }

/-- A filesystem where record 7's processed artifact exists and carries the
authorization tag. -/
def authorizedFS : String → FileState :=
  fun p => if p = "p7" then FileState.readable "<cStat>100</cStat>" else FileState.absent

/-- Executor state watching record 7 whose artifact is present and authorized. -/
def watchAuthorizedState : ExecState :=
  { initialExecState authorizedFS with processingFiles := [(7, entry7)] }

/-- Executor state watching record 7 whose artifact never appears. -/
def watchAbsentState : ExecState :=
  { initialExecState allAbsentFS with processingFiles := [(7, entry7)] }

/-- A filesystem where record 7's processed artifact exists but reading it fails. -/
def unreadableFS : String → FileState :=
  fun p => if p = "p7" then FileState.unreadable else FileState.absent

/-- Executor state watching record 7 whose artifact exists but cannot be read. -/
def watchUnreadableState : ExecState :=
  { initialExecState unreadableFS with processingFiles := [(7, entry7)] }

/-- First record of the three-record scheduler-tick scenario. -/
def batchRec1 : Record := { id := 1, numero_cte := goodKey, status := "pendente" }

/-- Third record of the three-record scheduler-tick scenario. -/
def batchRec3 : Record := { id := 3, numero_cte := keyB, status := "pendente" }

/-- A filesystem holding the source XMLs of records 1 and 3 but not of record 2. -/
def batchFS : String → FileState :=
  fun p =>
    if p = sourcePathFor batchRec1 then FileState.readable "a"
    else if p = sourcePathFor batchRec3 then FileState.readable "b"
    else FileState.absent

/-- Fresh executor state over `batchFS`. -/
def batchState : ExecState := initialExecState batchFS

/-- A record re-registering id 7, which `watchAbsentState` already watches. -/
def reRegRecord : Record := { id := 7, numero_cte := goodKey, status := "pendente" }

/-! ## Lemmas -/

/-! ### Association-list (`Map`) lemmas -/

theorem mapGet?_set_self {κ α : Type} [DecidableEq κ] (k : κ) (v : α) (l : List (κ × α)) :
    mapGet? k (mapSet k v l) = some v := by
  induction l with
  | nil => simp [mapSet, mapGet?]
  | cons e rest ih =>
    by_cases h : e.1 = k
    · simp [mapSet, h, mapGet?]
    · simpa [mapSet, h, mapGet?] using ih

theorem mapGet?_set_ne {κ α : Type} [DecidableEq κ] (k k' : κ) (v : α) (l : List (κ × α))
    (h : k' ≠ k) : mapGet? k' (mapSet k v l) = mapGet? k' l := by
  induction l with
  | nil => simp [mapSet, mapGet?, Ne.symm h]
  | cons e rest ih =>
    by_cases he : e.1 = k
    · subst he
      simp [mapSet, mapGet?, Ne.symm h]
    · by_cases he' : e.1 = k' <;> simp [mapSet, he, mapGet?, he', ih, h]

theorem mapDelete_set_self {κ α : Type} [DecidableEq κ] (k : κ) (v : α) (l : List (κ × α)) :
    mapDelete k (mapSet k v l) = mapDelete k l := by
  induction l with
  | nil => simp [mapSet, mapDelete]
  | cons e rest ih =>
    by_cases h : e.1 = k
    · simp [mapSet, h, mapDelete]
    · simpa [mapSet, h, mapDelete] using ih

theorem mapSet_keys {κ α : Type} [DecidableEq κ] (k : κ) (v : α) (l : List (κ × α)) :
    (mapSet k v l).map Prod.fst =
      if k ∈ l.map Prod.fst then l.map Prod.fst else l.map Prod.fst ++ [k] := by
  induction l with
  | nil => simp [mapSet]
  | cons e rest ih =>
    by_cases h : e.1 = k
    · simp [mapSet, h]
    · by_cases hm : k ∈ rest.map Prod.fst <;>
        simp [mapSet, h, ih, hm, Ne.symm h]

/-! ### Trace-shape lemmas -/

theorem retryTrace_count_attempt (rid n : Nat) :
    (retryTrace rid n).count (Event.attempt rid) = n + 1 := by
  induction n with
  | zero => simp [retryTrace]
  | succ n ih => simp [retryTrace, List.count_cons, ih]

theorem retryTrace_count_delay (rid n : Nat) :
    (retryTrace rid n).count (Event.delayMs config.tasks.retryDelay) = n := by
  induction n with
  | zero => simp [retryTrace]
  | succ n ih => simp [retryTrace, List.count_cons, ih]

/-! ### TaskExecutor state-shape lemmas -/

theorem startProcessedFileMonitoring_fst (s : ExecState) :
    (startProcessedFileMonitoring s).1 = { s with processedFileInterval := true } := by
  cases s with
  | mk rt pf rc pfi api fs => by_cases h : pfi = true <;> simp [startProcessedFileMonitoring, h]

theorem waitForProcessedFile_eq (s : ExecState) (r : Record) (cnpj : String) (now : Nat) :
    waitForProcessedFile s r cnpj now =
      { s with
        processingFiles := mapSet r.id (watchEntryFor r cnpj now) s.processingFiles
        processedFileInterval := true } := by
  simp [waitForProcessedFile, startProcessedFileMonitoring_fst, watchEntryFor]

theorem moveExistingXMLToCNPJFolder_ok (s : ExecState) (r : Record) (cnpj : String)
    (h : fileExists s.fs (sourcePathFor r) = true) :
    moveExistingXMLToCNPJFolder s r cnpj =
      .ok { s with fs := fsRename s.fs (sourcePathFor r) (pathJoin (pathJoin config.xmlProcessing.cnpjBasePath cnpj) (r.numero_cte ++ ".xml")) } := by
  simp [moveExistingXMLToCNPJFolder, h]

theorem moveExistingXMLToCNPJFolder_err (s : ExecState) (r : Record) (cnpj : String)
    (h : fileExists s.fs (sourcePathFor r) = false) :
    moveExistingXMLToCNPJFolder s r cnpj =
      .error ("Arquivo XML não encontrado: " ++ sourcePathFor r) := by
  simp [moveExistingXMLToCNPJFolder, h]

/-- The attempt step fails with exactly the exception `processFailureMsg` predicts. -/
theorem processRecord_error (s : ExecState) (r : Record) (now : Nat) (m : String)
    (h : processFailureMsg s.fs r = some m) : processRecord s r now = .error m := by
  unfold processFailureMsg at h
  unfold processRecord
  cases hx : extractCNPJFromChaveAcesso r.numero_cte with
  | none =>
    rw [hx] at h
    simp only [Option.some.injEq] at h
    simp [h]
  | some cnpj =>
    rw [hx] at h
    by_cases hst : r.status = "pendente"
    · simp only [hst, if_true] at h
      by_cases hfe : fileExists s.fs (sourcePathFor r) = true
      · simp [hfe] at h
      · have hfe' : fileExists s.fs (sourcePathFor r) = false := by
          simpa using hfe
        simp only [hfe', Bool.false_eq_true, if_false, Option.some.injEq] at h
        simp [hst, handlePendingDocument, moveExistingXMLToCNPJFolder_err s r cnpj hfe', h]
    · simp [hst] at h

/-- When `processFailureMsg` predicts no exception, the attempt succeeds, and
the success never touches the retry counters. -/
theorem processRecord_ok (s : ExecState) (r : Record) (now : Nat)
    (h : processFailureMsg s.fs r = none) :
    ∃ s', processRecord s r now = .ok s' ∧ s'.retryCounters = s.retryCounters := by
  unfold processFailureMsg at h
  unfold processRecord
  cases hx : extractCNPJFromChaveAcesso r.numero_cte with
  | none => rw [hx] at h; simp at h
  | some cnpj =>
    rw [hx] at h
    by_cases hst : r.status = "pendente"
    · simp only [hst, if_true] at h
      by_cases hfe : fileExists s.fs (sourcePathFor r) = true
      · refine ⟨waitForProcessedFile { s with fs := fsRename s.fs (sourcePathFor r) (pathJoin (pathJoin config.xmlProcessing.cnpjBasePath cnpj) (r.numero_cte ++ ".xml")) } r cnpj now, ?_, ?_⟩
        · simp [hst, handlePendingDocument, moveExistingXMLToCNPJFolder_ok s r cnpj hfe]
        · simp [waitForProcessedFile_eq]
      · have hfe' : fileExists s.fs (sourcePathFor r) = false := by simpa using hfe
        simp [hfe'] at h
    · exact ⟨s, by simp [hst], rfl⟩

/-! ### `executeTask` retry-loop lemmas -/

/-- One failing attempt below the retry ceiling: `executeTask` recurses on
`retryState` after an attempt event and a backoff delay. -/
theorem executeTask_step_retry (fuel : Nat) (s : ExecState) (r : Record) (now : Nat)
    (m : String) (hm : processFailureMsg s.fs r = some m)
    (hlt : mapGetD (retryKey r.id) 0 s.retryCounters < config.tasks.retryAttempts) :
    executeTask (fuel + 1) s r now =
      ((executeTask fuel (retryState s r now) r now).1,
       (executeTask fuel (retryState s r now) r now).2.1,
       Event.attempt r.id :: Event.delayMs config.tasks.retryDelay ::
         (executeTask fuel (retryState s r now) r now).2.2) := by
  have hpr : processRecord
      { s with runningTasks := mapSet (taskIdFor r now) (r.id, now) s.runningTasks } r now =
      .error m := processRecord_error _ r now m hm
  simp only [executeTask, hpr, handleTaskFailure, hlt, if_true]
  rfl

/-- One failing attempt at the retry ceiling: `executeTask` gives up, deletes
the retry counter, and reports the failure. -/
theorem executeTask_step_giveup (fuel : Nat) (s : ExecState) (r : Record) (now : Nat)
    (m : String) (hm : processFailureMsg s.fs r = some m)
    (hge : ¬ mapGetD (retryKey r.id) 0 s.retryCounters < config.tasks.retryAttempts) :
    executeTask (fuel + 1) s r now =
      ({ success := false, recordId := r.id, error := some m },
       { s with
         runningTasks := mapDelete (taskIdFor r now) (mapSet (taskIdFor r now) (r.id, now) s.runningTasks),
         retryCounters := mapDelete (retryKey r.id) s.retryCounters },
       [Event.attempt r.id]) := by
  have hpr : processRecord
      { s with runningTasks := mapSet (taskIdFor r now) (r.id, now) s.runningTasks } r now =
      .error m := processRecord_error _ r now m hm
  simp only [executeTask, hpr, handleTaskFailure, hge, if_false]

/-- A run every attempt of which raises the exception `m` gives up with
`success:false` and `m` after `retryAttempts + 1 - c₀` attempts in total
(`c₀` the starting counter, at most the ceiling), with one backoff delay
between consecutive attempts, and ends by deleting the retry counter.
Holds for every sufficient fuel, i.e. for the recursion of the source. -/
theorem executeTask_allfail (r : Record) (m : String) :
    ∀ (fuel : Nat) (s : ExecState) (now : Nat),
      processFailureMsg s.fs r = some m →
      mapGetD (retryKey r.id) 0 s.retryCounters ≤ config.tasks.retryAttempts →
      config.tasks.retryAttempts + 1 - mapGetD (retryKey r.id) 0 s.retryCounters ≤ fuel →
      (executeTask fuel s r now).1 = { success := false, recordId := r.id, error := some m } ∧
      (executeTask fuel s r now).2.1.retryCounters = mapDelete (retryKey r.id) s.retryCounters ∧
      (executeTask fuel s r now).2.2 =
        retryTrace r.id (config.tasks.retryAttempts - mapGetD (retryKey r.id) 0 s.retryCounters) := by
  intro fuel
  induction fuel with
  | zero =>
    intro s now _hm hc hf
    exfalso
    omega
  | succ fuel ih =>
    intro s now hm hc hf
    by_cases hlt : mapGetD (retryKey r.id) 0 s.retryCounters < config.tasks.retryAttempts
    · -- below the ceiling: increment and recurse
      have hget : mapGetD (retryKey r.id) 0 (retryState s r now).retryCounters =
          mapGetD (retryKey r.id) 0 s.retryCounters + 1 := by
        simp [retryState, mapGetD, mapGet?_set_self]
      obtain ⟨ih1, ih2, ih3⟩ :=
        ih (retryState s r now) now hm (by rw [hget]; omega) (by rw [hget]; omega)
      rw [executeTask_step_retry fuel s r now m hm hlt]
      refine ⟨ih1, ?_, ?_⟩
      · rw [show ((executeTask fuel (retryState s r now) r now).1,
            (executeTask fuel (retryState s r now) r now).2.1,
            Event.attempt r.id :: Event.delayMs config.tasks.retryDelay ::
              (executeTask fuel (retryState s r now) r now).2.2).2.1 =
            (executeTask fuel (retryState s r now) r now).2.1 from rfl, ih2]
        simp [retryState, mapDelete_set_self]
      · have hn : config.tasks.retryAttempts - mapGetD (retryKey r.id) 0 s.retryCounters =
            (config.tasks.retryAttempts - (mapGetD (retryKey r.id) 0 s.retryCounters + 1)) + 1 := by
          omega
        rw [hn]
        show Event.attempt r.id :: Event.delayMs config.tasks.retryDelay ::
            (executeTask fuel (retryState s r now) r now).2.2 = _
        rw [ih3, hget]
        rfl
    · -- at the ceiling: give up and delete the counter
      rw [executeTask_step_giveup fuel s r now m hm hlt]
      have hz : config.tasks.retryAttempts - mapGetD (retryKey r.id) 0 s.retryCounters = 0 := by
        omega
      exact ⟨rfl, rfl, by rw [hz]; rfl⟩

/-- A run whose first attempt succeeds returns `success:true` with exactly one
attempt and leaves the retry counters untouched. -/
theorem executeTask_success (fuel : Nat) (s : ExecState) (r : Record) (now : Nat)
    (h : processFailureMsg s.fs r = none) :
    (executeTask (fuel + 1) s r now).1 = { success := true, recordId := r.id, error := none } ∧
    (executeTask (fuel + 1) s r now).2.1.retryCounters = s.retryCounters ∧
    (executeTask (fuel + 1) s r now).2.2 = [Event.attempt r.id] := by
  obtain ⟨s', hpr, hrc⟩ := processRecord_ok
    { s with runningTasks := mapSet (taskIdFor r now) (r.id, now) s.runningTasks } r now h
  simp only [executeTask, hpr, executeSpecificTasks]
  refine ⟨by simp, ?_, by simp⟩
  simpa using hrc

/-- A run with positive fuel always records at least one attempt. -/
theorem executeTask_attempt_mem (fuel : Nat) (s : ExecState) (r : Record) (now : Nat)
    (h : 0 < fuel) : Event.attempt r.id ∈ (executeTask fuel s r now).2.2 := by
  cases fuel with
  | zero => omega
  | succ fuel =>
    cases hpr : processRecord
        { s with runningTasks := mapSet (taskIdFor r now) (r.id, now) s.runningTasks } r now with
    | ok s₂ => simp [executeTask, hpr, executeSpecificTasks]
    | error msg =>
      rcases hh : handleTaskFailure
          { runningTasks := mapDelete (taskIdFor r now)
              (mapSet (taskIdFor r now) (r.id, now) s.runningTasks)
            processingFiles := s.processingFiles
            retryCounters := s.retryCounters
            processedFileInterval := s.processedFileInterval
            apiClient := s.apiClient
            fs := s.fs } r msg with ⟨step, ev⟩
      cases step with
      | retryWith s₄ => simp [executeTask, hpr, hh]
      | giveUp res s₄ => simp [executeTask, hpr, hh]

/-! ### Watch-loop (`checkProcessedFiles`) lemmas -/

/-- Every event a single Watch Entry emits is a completion call for its own key. -/
theorem checkProcessedFilesEntry_events (client : Option ApiClientM)
    (fs : String → FileState) (now k : Nat) (fi : FileInfo) :
    ∀ e ∈ (checkProcessedFilesEntry client fs now k fi).2, e = Event.markCompleted k := by
  intro e he
  by_cases h1 : fileExists fs fi.processedPath = true
  · by_cases h2 : checkIfAuthorized fs fi.processedPath = true
    · rcases client with _ | c
      · simp [checkProcessedFilesEntry, h1, h2, markCTEAsEmitted] at he
      · by_cases h4 : c.markOk k = true
        · simp [checkProcessedFilesEntry, h1, h2, markCTEAsEmitted, h4] at he
          exact he
        · simp [checkProcessedFilesEntry, h1, h2, markCTEAsEmitted, h4] at he
          exact he
    · simp [checkProcessedFilesEntry, h1, h2] at he
  · simp [checkProcessedFilesEntry, h1, apply_ite] at he

/-- Entries keyed differently from `rid` can neither introduce key `rid` nor
emit a completion call for `rid`. -/
theorem checkFilesLoop_frame (client : Option ApiClientM) (fs : String → FileState)
    (now rid : Nat) :
    ∀ files : List (Nat × FileInfo), rid ∉ files.map Prod.fst →
      rid ∉ (checkFilesLoop client fs now files).1.map Prod.fst ∧
      Event.markCompleted rid ∉ (checkFilesLoop client fs now files).2 := by
  intro files
  induction files with
  | nil => intro _h; simp [checkFilesLoop]
  | cons e rest ih =>
    intro hmem
    rcases e with ⟨k, fi⟩
    simp only [List.map_cons, List.mem_cons, not_or] at hmem
    obtain ⟨hne, hrest⟩ := hmem
    obtain ⟨ih1, ih2⟩ := ih hrest
    constructor
    · simp only [checkFilesLoop]
      by_cases hrem : (checkProcessedFilesEntry client fs now k fi).1 = true
      · simpa [hrem] using ih1
      · have hrf : (checkProcessedFilesEntry client fs now k fi).1 = false := by
          simpa using hrem
        simp [hrf, ih1, hne]
    · simp only [checkFilesLoop, List.mem_append, not_or]
      refine ⟨?_, ih2⟩
      intro hev
      have hk := checkProcessedFilesEntry_events client fs now k fi _ hev
      injection hk with h'
      exact hne h'

/-- A Watch Entry whose artifact is absent past the timeout: the scan tick
drops its key and emits no completion call for it. -/
theorem checkFilesLoop_timeout (client : Option ApiClientM) (fs : String → FileState)
    (now rid : Nat) (fi : FileInfo)
    (habs : fs fi.processedPath = FileState.absent)
    (ht : now - fi.startTime > config.xmlProcessing.processingTimeout) :
    ∀ files : List (Nat × FileInfo), (rid, fi) ∈ files → (files.map Prod.fst).Nodup →
      rid ∉ (checkFilesLoop client fs now files).1.map Prod.fst ∧
      Event.markCompleted rid ∉ (checkFilesLoop client fs now files).2 := by
  intro files
  induction files with
  | nil => intro h; simp at h
  | cons e rest ih =>
    intro hmem hnd
    rcases e with ⟨k, fj⟩
    simp only [List.map_cons, List.nodup_cons] at hnd
    obtain ⟨hknot, hndrest⟩ := hnd
    rcases List.mem_cons.mp hmem with heq | htail
    · injection heq with h1 h2
      subst h1
      subst h2
      have hent : checkProcessedFilesEntry client fs now rid fi = (true, []) := by
        simp [checkProcessedFilesEntry, fileExists, habs, ht]
      obtain ⟨f1, f2⟩ := checkFilesLoop_frame client fs now rid rest hknot
      simp only [checkFilesLoop, hent]
      exact ⟨by simpa using f1, by simpa using f2⟩
    · have hne : k ≠ rid := by
        intro h
        subst h
        exact hknot (List.mem_map_of_mem Prod.fst htail)
      obtain ⟨ih1, ih2⟩ := ih htail hndrest
      constructor
      · simp only [checkFilesLoop]
        by_cases hrem : (checkProcessedFilesEntry client fs now k fj).1 = true
        · simpa [hrem] using ih1
        · have hrf : (checkProcessedFilesEntry client fs now k fj).1 = false := by
            simpa using hrem
          simp [hrf, ih1, Ne.symm hne]
      · simp only [checkFilesLoop, List.mem_append, not_or]
        refine ⟨?_, ih2⟩
        intro hev
        have hk := checkProcessedFilesEntry_events client fs now k fj _ hev
        injection hk with h'
        exact hne h'.symm

/-- An entry whose per-entry check decides to keep it stays in the registry
after the tick. -/
theorem checkFilesLoop_keeps (client : Option ApiClientM) (fs : String → FileState)
    (now rid : Nat) (fi : FileInfo)
    (hkeep : (checkProcessedFilesEntry client fs now rid fi).1 = false) :
    ∀ files : List (Nat × FileInfo), (rid, fi) ∈ files →
      (rid, fi) ∈ (checkFilesLoop client fs now files).1 := by
  intro files
  induction files with
  | nil => intro h; simp at h
  | cons e rest ih =>
    intro hmem
    rcases List.mem_cons.mp hmem with heq | htail
    · rcases e with ⟨k, fj⟩
      injection heq with h1 h2
      subst h1
      subst h2
      simp [checkFilesLoop, hkeep]
    · have hmem' := ih htail
      rcases e with ⟨k, fj⟩
      simp only [checkFilesLoop]
      by_cases hrem : (checkProcessedFilesEntry client fs now k fj).1 = true
      · simpa [hrem] using hmem'
      · have hrf : (checkProcessedFilesEntry client fs now k fj).1 = false := by
          simpa using hrem
        simp [hrf]
        right
        exact hmem'

/-! ### Scheduler (`DatabaseMonitor`) lemmas -/

/-- `DatabaseMonitor.processRecord`: the counter grows by one exactly when the
executor reported success and the completion call succeeded; the executor's
state threads through; the executor's trace is preserved. -/
theorem monitorProcessRecord_spec (fuel : Nat) (client : ApiClientM) (count : Nat)
    (es : ExecState) (r : Record) (now : Nat) :
    (monitorProcessRecord fuel client count es r now).1 =
      count + (if (executeTask fuel es r now).1.success && client.markOk r.id then 1 else 0) ∧
    (monitorProcessRecord fuel client count es r now).2.1 = (executeTask fuel es r now).2.1 ∧
    (executeTask fuel es r now).2.2 ⊆ (monitorProcessRecord fuel client count es r now).2.2 := by
  unfold monitorProcessRecord
  by_cases h1 : (executeTask fuel es r now).1.success = true
  · by_cases h2 : client.markOk r.id = true
    · simp [h1, h2]
    · have h2' : client.markOk r.id = false := by simpa using h2
      simp [h1, h2']
  · have h1' : (executeTask fuel es r now).1.success = false := by simpa using h1
    simp [h1']

/-! ## Claim theorems -/

/-- Claim C2, counterexample: for the malformed-key record `badKeyRecord`
(`extractCNPJFromChaveAcesso` fails), `executeTask` does NOT abort without
re-attempts: it performs 4 attempts with 3 backoff delays of `retryDelay`
before returning the failure result, contradicting "without any re-attempt,
backoff delay, or retry-counter increment". -/
theorem malformedKey_is_retried_cex :
    extractCNPJFromChaveAcesso badKeyRecord.numero_cte = none ∧
    (executeTask 4 (initialExecState allAbsentFS) badKeyRecord 0).1.success = false ∧
    (executeTask 4 (initialExecState allAbsentFS) badKeyRecord 0).2.2 =
      retryTrace 2 config.tasks.retryAttempts ∧
    (executeTask 4 (initialExecState allAbsentFS) badKeyRecord 0).2.2.count
      (Event.delayMs config.tasks.retryDelay) = 3 ∧
    (executeTask 4 (initialExecState allAbsentFS) badKeyRecord 0).2.2.count
      (Event.attempt 2) = 4 ∧
    ¬ (executeTask 4 (initialExecState allAbsentFS) badKeyRecord 0).2.2.count
      (Event.delayMs config.tasks.retryDelay) = 0 := by
  decide

/-- Claim C2 (amended): a malformed `externalKey` fails the attempt like any
other failure — `handleTaskFailure` does not inspect the error, so the run is
re-attempted with `retryDelay` backoff until the `retryAttempts` ceiling,
after which `executeTask` returns `success:false` carrying the malformed-key
message and deletes the retry counter. -/
theorem malformedKey_retried_like_other_failures (s : ExecState) (r : Record)
    (now fuel : Nat)
    (hbad : extractCNPJFromChaveAcesso r.numero_cte = none)
    (hc : mapGet? (retryKey r.id) s.retryCounters = none)
    (hfuel : config.tasks.retryAttempts + 1 ≤ fuel) :
    (executeTask fuel s r now).1 =
      { success := false, recordId := r.id,
        error := some ("Não foi possível extrair CNPJ da chave de acesso: " ++ r.numero_cte) } ∧
    (executeTask fuel s r now).2.2 = retryTrace r.id config.tasks.retryAttempts ∧
    (executeTask fuel s r now).2.1.retryCounters = mapDelete (retryKey r.id) s.retryCounters := by
  have hm : processFailureMsg s.fs r =
      some ("Não foi possível extrair CNPJ da chave de acesso: " ++ r.numero_cte) := by
    simp [processFailureMsg, hbad]
  have hc0 : mapGetD (retryKey r.id) 0 s.retryCounters = 0 := by
    simp [mapGetD, hc]
  obtain ⟨a, b, c⟩ := executeTask_allfail r _ fuel s now hm (by rw [hc0]; omega)
    (by rw [hc0]; omega)
  refine ⟨a, ?_, b⟩
  rw [c, hc0, Nat.sub_zero]

/-- Witness for `malformedKey_retried_like_other_failures` at `badKeyRecord`. -/
theorem malformedKey_retried_witness :
    (executeTask 4 (initialExecState allAbsentFS) badKeyRecord 0).1 =
      { success := false, recordId := badKeyRecord.id,
        error := some ("Não foi possível extrair CNPJ da chave de acesso: " ++ badKeyRecord.numero_cte) } ∧
    (executeTask 4 (initialExecState allAbsentFS) badKeyRecord 0).2.2 =
      retryTrace badKeyRecord.id config.tasks.retryAttempts ∧
    (executeTask 4 (initialExecState allAbsentFS) badKeyRecord 0).2.1.retryCounters =
      mapDelete (retryKey badKeyRecord.id) (initialExecState allAbsentFS).retryCounters :=
  malformedKey_retried_like_other_failures (initialExecState allAbsentFS) badKeyRecord 0 4
    (by decide) (by decide) (by decide)

/-- Claim C3, counterexample: for a step that always fails (valid key, source
XML absent on every attempt), `executeTask` returns `success:false` after 4
attempts in total — `retryAttempts + 1`, not "exactly `retryAttempts` (3)". -/
theorem retryBound_four_attempts_cex :
    processFailureMsg (initialExecState allAbsentFS).fs missingXmlRecord =
      some ("Arquivo XML não encontrado: " ++ sourcePathFor missingXmlRecord) ∧
    (executeTask 4 (initialExecState allAbsentFS) missingXmlRecord 0).1.success = false ∧
    (executeTask 4 (initialExecState allAbsentFS) missingXmlRecord 0).2.2.count
      (Event.attempt 3) = 4 ∧
    ¬ (executeTask 4 (initialExecState allAbsentFS) missingXmlRecord 0).2.2.count
      (Event.attempt 3) = config.tasks.retryAttempts := by
  decide

/-- Claim C3 (amended): for a record every attempt of which fails, `executeTask`
returns `success:false` after exactly `retryAttempts + 1` internal attempts
(the initial attempt plus `retryAttempts` retries, 4 by default), with a
`retryDelay` wait between each pair of consecutive attempts (`retryAttempts`
delays in total). -/
theorem retry_exhaustion_attempt_count (s : ExecState) (r : Record) (now fuel : Nat)
    (m : String)
    (hm : processFailureMsg s.fs r = some m)
    (hc : mapGet? (retryKey r.id) s.retryCounters = none)
    (hfuel : config.tasks.retryAttempts + 1 ≤ fuel) :
    (executeTask fuel s r now).1 = { success := false, recordId := r.id, error := some m } ∧
    (executeTask fuel s r now).2.2 = retryTrace r.id config.tasks.retryAttempts ∧
    (executeTask fuel s r now).2.2.count (Event.attempt r.id) =
      config.tasks.retryAttempts + 1 ∧
    (executeTask fuel s r now).2.2.count (Event.delayMs config.tasks.retryDelay) =
      config.tasks.retryAttempts := by
  have hc0 : mapGetD (retryKey r.id) 0 s.retryCounters = 0 := by
    simp [mapGetD, hc]
  obtain ⟨a, b, c⟩ := executeTask_allfail r m fuel s now hm (by rw [hc0]; omega)
    (by rw [hc0]; omega)
  have ht : (executeTask fuel s r now).2.2 = retryTrace r.id config.tasks.retryAttempts := by
    rw [c, hc0, Nat.sub_zero]
  refine ⟨a, ht, ?_, ?_⟩
  · rw [ht, retryTrace_count_attempt]
  · rw [ht, retryTrace_count_delay]

/-- Witness for `retry_exhaustion_attempt_count` at `missingXmlRecord`. -/
theorem retry_exhaustion_attempt_count_witness :
    (executeTask 4 (initialExecState allAbsentFS) missingXmlRecord 0).1 =
      { success := false, recordId := missingXmlRecord.id,
        error := some ("Arquivo XML não encontrado: " ++ sourcePathFor missingXmlRecord) } ∧
    (executeTask 4 (initialExecState allAbsentFS) missingXmlRecord 0).2.2 =
      retryTrace missingXmlRecord.id config.tasks.retryAttempts ∧
    (executeTask 4 (initialExecState allAbsentFS) missingXmlRecord 0).2.2.count
      (Event.attempt missingXmlRecord.id) = config.tasks.retryAttempts + 1 ∧
    (executeTask 4 (initialExecState allAbsentFS) missingXmlRecord 0).2.2.count
      (Event.delayMs config.tasks.retryDelay) = config.tasks.retryAttempts :=
  retry_exhaustion_attempt_count (initialExecState allAbsentFS) missingXmlRecord 0 4
    ("Arquivo XML não encontrado: " ++ sourcePathFor missingXmlRecord)
    (by decide) (by decide) (by decide)

/-- Claim C4, counterexample: starting from a state carrying a left-over retry
count of 2 for record 5 (as left by failed attempts of an earlier run),
a successful `executeTask` run returns `success:true` but does NOT reset the
counter — a non-zero retry count remains after the successful return. -/
theorem retryCounter_not_reset_on_success_cex :
    (executeTask 4 seededCounterState movedRecord 0).1.success = true ∧
    (executeTask 4 seededCounterState movedRecord 0).2.1.retryCounters = [(retryKey 5, 2)] ∧
    ¬ mapGetD (retryKey movedRecord.id) 0
      (executeTask 4 seededCounterState movedRecord 0).2.1.retryCounters = 0 := by
  decide

/-- Claim C4 (amended): the Retry Counter is reset only when retries are
exhausted (the counter entry is deleted); a run ending in success leaves the
retry-counter map exactly as it was, so a non-zero count for the record id
can remain after a successful `executeTask` return. -/
theorem retryCounter_reset_only_on_exhaustion
    (s₁ : ExecState) (r₁ : Record) (now₁ fuel₁ : Nat)
    (h₁ : processFailureMsg s₁.fs r₁ = none)
    (s₂ : ExecState) (r₂ : Record) (m : String) (now₂ fuel₂ : Nat)
    (h₂ : processFailureMsg s₂.fs r₂ = some m)
    (hc₂ : mapGetD (retryKey r₂.id) 0 s₂.retryCounters ≤ config.tasks.retryAttempts)
    (hf₂ : config.tasks.retryAttempts + 1 ≤ fuel₂) :
    ((executeTask (fuel₁ + 1) s₁ r₁ now₁).1.success = true ∧
     (executeTask (fuel₁ + 1) s₁ r₁ now₁).2.1.retryCounters = s₁.retryCounters) ∧
    ((executeTask fuel₂ s₂ r₂ now₂).1.success = false ∧
     (executeTask fuel₂ s₂ r₂ now₂).2.1.retryCounters =
       mapDelete (retryKey r₂.id) s₂.retryCounters) := by
  obtain ⟨a1, a2, _⟩ := executeTask_success fuel₁ s₁ r₁ now₁ h₁
  obtain ⟨b1, b2, _⟩ := executeTask_allfail r₂ m fuel₂ s₂ now₂ h₂ hc₂ (by omega)
  exact ⟨⟨by rw [a1], a2⟩, ⟨by rw [b1], b2⟩⟩

/-- Witness for `retryCounter_reset_only_on_exhaustion`: the success side at
`seededCounterState` (counter 2 remains), the exhaustion side at
`badKeyRecord` (counter deleted). -/
theorem retryCounter_reset_only_on_exhaustion_witness :
    ((executeTask 4 seededCounterState movedRecord 0).1.success = true ∧
     (executeTask 4 seededCounterState movedRecord 0).2.1.retryCounters =
       seededCounterState.retryCounters) ∧
    ((executeTask 4 (initialExecState allAbsentFS) badKeyRecord 0).1.success = false ∧
     (executeTask 4 (initialExecState allAbsentFS) badKeyRecord 0).2.1.retryCounters =
       mapDelete (retryKey badKeyRecord.id) (initialExecState allAbsentFS).retryCounters) :=
  retryCounter_reset_only_on_exhaustion seededCounterState movedRecord 0 3 (by decide)
    (initialExecState allAbsentFS) badKeyRecord
    ("Não foi possível extrair CNPJ da chave de acesso: " ++ badKeyRecord.numero_cte) 0 4
    (by decide) (by decide) (by decide)

/-- Claim C1 (the code contradicts it): `new TaskExecutor()` never receives an
`apiClient`, so even for a Watch Entry whose artifact exists and is classified
authorized, the scan tick's `markCTEAsEmitted` throws on the undefined member
before any store call, is caught by the per-entry handler, and the entry is
NOT removed — no `markCompleted` invocation happens.  With the client wired
(the spec's evident intent), the same tick invokes `markCompleted(7)` exactly
once and removes the entry. -/
theorem watchTick_apiClient_never_wired :
    checkIfAuthorized watchAuthorizedState.fs entry7.processedPath = true ∧
    watchAuthorizedState.apiClient = none ∧
    (checkProcessedFiles watchAuthorizedState 1000).1.processingFiles = [(7, entry7)] ∧
    (checkProcessedFiles watchAuthorizedState 1000).2 = [] ∧
    (checkProcessedFiles { watchAuthorizedState with
      apiClient := some wiredClient } 1000).1.processingFiles = [] ∧
    (checkProcessedFiles { watchAuthorizedState with
      apiClient := some wiredClient } 1000).2 = [Event.markCompleted 7] :=
  ⟨by decide, rfl, by decide, by decide, by decide, by decide⟩

/-- Claim C5: within one Scheduler tick, every fetched record gets its own
executor run (at least one attempt event per record appears in the tick's
trace, regardless of other records' failures), and the tick's processed
counter grows by exactly the number of records whose `executeTask` result
reported success and whose completion call succeeded. -/
theorem scheduler_tick_isolation_and_counter (fuel : Nat) (client : ApiClientM)
    (hf : 0 < fuel) :
    ∀ (records : List Record) (count : Nat) (es : ExecState) (now : Nat),
      (checkDatabase fuel client count es records now).1 =
        count + tickSuccessCount fuel client es records now ∧
      ∀ r ∈ records, Event.attempt r.id ∈ (checkDatabase fuel client count es records now).2.2 := by
  intro records
  induction records with
  | nil =>
    intro count es now
    simp [checkDatabase, tickSuccessCount]
  | cons r rest ih =>
    intro count es now
    obtain ⟨m1, m2, m3⟩ := monitorProcessRecord_spec fuel client count es r now
    obtain ⟨ih1, ih2⟩ := ih (monitorProcessRecord fuel client count es r now).1
      (monitorProcessRecord fuel client count es r now).2.1 now
    constructor
    · show (checkDatabase fuel client (monitorProcessRecord fuel client count es r now).1
        (monitorProcessRecord fuel client count es r now).2.1 rest now).1 = _
      rw [ih1, m1, m2]
      show count + (if (executeTask fuel es r now).1.success && client.markOk r.id
          then 1 else 0) + tickSuccessCount fuel client (executeTask fuel es r now).2.1 rest now =
        count + ((if (executeTask fuel es r now).1.success && client.markOk r.id
          then 1 else 0) + tickSuccessCount fuel client (executeTask fuel es r now).2.1 rest now)
      omega
    · intro r' hr'
      rcases List.mem_cons.mp hr' with heq | htail
      · subst heq
        show Event.attempt r'.id ∈ (monitorProcessRecord fuel client count es r' now).2.2 ++ _
        exact List.mem_append_left _ (m3 (executeTask_attempt_mem fuel es r' now hf))
      · show Event.attempt r'.id ∈ (monitorProcessRecord fuel client count es r now).2.2 ++ _
        exact List.mem_append_right _ (ih2 r' htail)

/-- Witness for `scheduler_tick_isolation_and_counter`: the three-record
scenario (record 2 has a malformed key and fails after its retries; records 1
and 3 succeed). -/
theorem scheduler_tick_isolation_witness :
    (checkDatabase 4 wiredClient 0 batchState [batchRec1, badKeyRecord, batchRec3] 0).1 =
      0 + tickSuccessCount 4 wiredClient batchState [batchRec1, badKeyRecord, batchRec3] 0 ∧
    ∀ r ∈ [batchRec1, badKeyRecord, batchRec3],
      Event.attempt r.id ∈
        (checkDatabase 4 wiredClient 0 batchState [batchRec1, badKeyRecord, batchRec3] 0).2.2 :=
  scheduler_tick_isolation_and_counter 4 wiredClient (by decide)
    [batchRec1, badKeyRecord, batchRec3] 0 batchState 0

/-- Claim C6: for a pending record whose 44-character key has digits at
offset 6, length 14, the derived sub-identifier is exactly that substring, and
`processRecord` relocates the artifact into the per-entity folder
`<cnpjBasePath>/<that substring>/` and registers the Watch Entry built from
that substring. -/
theorem valid_key_cnpj_folder (s : ExecState) (r : Record) (now : Nat)
    (h44 : r.numero_cte.length = 44)
    (hdig : ((r.numero_cte.toList.drop 6).take 14).all Char.isDigit = true)
    (hst : r.status = "pendente")
    (hsrc : fileExists s.fs (sourcePathFor r) = true) :
    extractCNPJFromChaveAcesso r.numero_cte =
      some (String.mk ((r.numero_cte.toList.drop 6).take 14)) ∧
    (String.mk ((r.numero_cte.toList.drop 6).take 14)).length = 14 ∧
    ∃ s', processRecord s r now = .ok s' ∧
      mapGet? r.id s'.processingFiles =
        some (watchEntryFor r (String.mk ((r.numero_cte.toList.drop 6).take 14)) now) ∧
      s'.fs (pathJoin (pathJoin config.xmlProcessing.cnpjBasePath
          (String.mk ((r.numero_cte.toList.drop 6).take 14))) (r.numero_cte ++ ".xml")) =
        s.fs (sourcePathFor r) := by
  have hlistlen : r.numero_cte.toList.length = 44 := h44
  have hlen : (String.mk ((r.numero_cte.toList.drop 6).take 14)).length = 14 := by
    show ((r.numero_cte.toList.drop 6).take 14).length = 14
    rw [List.length_take, List.length_drop, hlistlen]
    omega
  have hsub : jsSubstring r.numero_cte 6 20 = String.mk ((r.numero_cte.toList.drop 6).take 14) := rfl
  have hext : extractCNPJFromChaveAcesso r.numero_cte =
      some (String.mk ((r.numero_cte.toList.drop 6).take 14)) := by
    unfold extractCNPJFromChaveAcesso
    rw [if_pos h44, hsub]
    have hcond : ((String.mk ((r.numero_cte.toList.drop 6).take 14)).length == 14 &&
        (String.mk ((r.numero_cte.toList.drop 6).take 14)).toList.all Char.isDigit) = true := by
      rw [hlen]
      show (true && ((r.numero_cte.toList.drop 6).take 14).all Char.isDigit) = true
      rw [Bool.true_and, hdig]
    rw [if_pos hcond]
  refine ⟨hext, hlen, ?_⟩
  refine ⟨waitForProcessedFile { s with fs := fsRename s.fs (sourcePathFor r) (pathJoin (pathJoin config.xmlProcessing.cnpjBasePath (String.mk ((r.numero_cte.toList.drop 6).take 14))) (r.numero_cte ++ ".xml")) } r (String.mk ((r.numero_cte.toList.drop 6).take 14)) now, ?_, ?_, ?_⟩
  · unfold processRecord
    rw [hext]
    simp only [hst, if_true]
    unfold handlePendingDocument
    rw [moveExistingXMLToCNPJFolder_ok s r _ hsrc]
  · rw [waitForProcessedFile_eq]
    exact mapGet?_set_self r.id _ _
  · rw [waitForProcessedFile_eq]
    show fsRename s.fs (sourcePathFor r) _ _ = s.fs (sourcePathFor r)
    simp [fsRename]

/-- Witness for `valid_key_cnpj_folder` at `movedRecord` over `presentSourceFS`:
the derived sub-identifier is `goodCnpj` and the artifact lands in its folder. -/
theorem valid_key_cnpj_folder_witness :
    extractCNPJFromChaveAcesso movedRecord.numero_cte =
      some (String.mk ((movedRecord.numero_cte.toList.drop 6).take 14)) ∧
    (String.mk ((movedRecord.numero_cte.toList.drop 6).take 14)).length = 14 ∧
    ∃ s', processRecord (initialExecState presentSourceFS) movedRecord 0 = .ok s' ∧
      mapGet? movedRecord.id s'.processingFiles =
        some (watchEntryFor movedRecord
          (String.mk ((movedRecord.numero_cte.toList.drop 6).take 14)) 0) ∧
      s'.fs (pathJoin (pathJoin config.xmlProcessing.cnpjBasePath
          (String.mk ((movedRecord.numero_cte.toList.drop 6).take 14)))
          (movedRecord.numero_cte ++ ".xml")) =
        (initialExecState presentSourceFS).fs (sourcePathFor movedRecord) :=
  valid_key_cnpj_folder (initialExecState presentSourceFS) movedRecord 0
    (by decide) (by decide) (by decide) (by decide)

/-- Claim C7: registering a watch via `waitForProcessedFile` leaves exactly one
entry under the record's id (count one, keys still without duplicates), stores
the freshly built Watch Entry there, and leaves every other id's entry
untouched — re-registration overwrites, never duplicates. -/
theorem watch_registration_overwrites (s : ExecState) (r : Record) (cnpj : String)
    (now : Nat) (hnd : (s.processingFiles.map Prod.fst).Nodup) :
    ((waitForProcessedFile s r cnpj now).processingFiles.map Prod.fst).count r.id = 1 ∧
    ((waitForProcessedFile s r cnpj now).processingFiles.map Prod.fst).Nodup ∧
    mapGet? r.id (waitForProcessedFile s r cnpj now).processingFiles =
      some (watchEntryFor r cnpj now) ∧
    ∀ k, k ≠ r.id →
      mapGet? k (waitForProcessedFile s r cnpj now).processingFiles =
        mapGet? k s.processingFiles := by
  rw [waitForProcessedFile_eq]
  show ((mapSet r.id (watchEntryFor r cnpj now) s.processingFiles).map Prod.fst).count r.id = 1 ∧
    ((mapSet r.id (watchEntryFor r cnpj now) s.processingFiles).map Prod.fst).Nodup ∧
    mapGet? r.id (mapSet r.id (watchEntryFor r cnpj now) s.processingFiles) =
      some (watchEntryFor r cnpj now) ∧
    ∀ k, k ≠ r.id →
      mapGet? k (mapSet r.id (watchEntryFor r cnpj now) s.processingFiles) =
        mapGet? k s.processingFiles
  rw [mapSet_keys]
  by_cases hm : r.id ∈ s.processingFiles.map Prod.fst
  · rw [if_pos hm]
    exact ⟨List.count_eq_one_of_mem hnd hm, hnd, mapGet?_set_self r.id _ _,
      fun k hk => mapGet?_set_ne r.id k _ _ hk⟩
  · rw [if_neg hm]
    refine ⟨?_, ?_, mapGet?_set_self r.id _ _, fun k hk => mapGet?_set_ne r.id k _ _ hk⟩
    · rw [List.count_append, List.count_eq_zero_of_not_mem hm]
      simp
    · simp [List.nodup_append, hnd, hm]

/-- Witness for `watch_registration_overwrites`: re-registering id 7 over
`watchAbsentState`, which already watches id 7, yields exactly one entry. -/
theorem watch_registration_overwrites_witness :
    ((waitForProcessedFile watchAbsentState reRegRecord goodCnpj 42).processingFiles.map
      Prod.fst).count reRegRecord.id = 1 ∧
    ((waitForProcessedFile watchAbsentState reRegRecord goodCnpj 42).processingFiles.map
      Prod.fst).Nodup ∧
    mapGet? reRegRecord.id
      (waitForProcessedFile watchAbsentState reRegRecord goodCnpj 42).processingFiles =
      some (watchEntryFor reRegRecord goodCnpj 42) ∧
    ∀ k, k ≠ reRegRecord.id →
      mapGet? k (waitForProcessedFile watchAbsentState reRegRecord goodCnpj 42).processingFiles =
        mapGet? k watchAbsentState.processingFiles :=
  watch_registration_overwrites watchAbsentState reRegRecord goodCnpj 42 (by decide)

/-- Claim C8: starting the watch loop from a state with no active scan timer
arms exactly one timer (`setInterval` called once); a second start observes
the stored handle, changes nothing, and arms no second timer. -/
theorem watch_loop_start_idempotent (s : ExecState) (h : s.processedFileInterval = false) :
    (startProcessedFileMonitoring s).2 = [Event.timerStarted] ∧
    (startProcessedFileMonitoring s).1.processedFileInterval = true ∧
    startProcessedFileMonitoring ((startProcessedFileMonitoring s).1) =
      ((startProcessedFileMonitoring s).1, []) := by
  refine ⟨?_, ?_, ?_⟩
  · simp [startProcessedFileMonitoring, h]
  · simp [startProcessedFileMonitoring, h]
  · simp [startProcessedFileMonitoring, h]

/-- Witness for `watch_loop_start_idempotent` at a fresh executor state. -/
theorem watch_loop_start_idempotent_witness :
    (startProcessedFileMonitoring (initialExecState allAbsentFS)).2 = [Event.timerStarted] ∧
    (startProcessedFileMonitoring (initialExecState allAbsentFS)).1.processedFileInterval = true ∧
    startProcessedFileMonitoring ((startProcessedFileMonitoring (initialExecState allAbsentFS)).1) =
      ((startProcessedFileMonitoring (initialExecState allAbsentFS)).1, []) :=
  watch_loop_start_idempotent (initialExecState allAbsentFS) rfl

/-- Claim C9: a Watch Entry whose artifact is absent at a scan tick and whose
elapsed time exceeds `processingTimeout` is removed by that tick, and the tick
emits no store-completion call for its record id. -/
theorem watchTick_timeout_drop (s : ExecState) (now rid : Nat) (fi : FileInfo)
    (hmem : (rid, fi) ∈ s.processingFiles)
    (hnd : (s.processingFiles.map Prod.fst).Nodup)
    (habs : s.fs fi.processedPath = FileState.absent)
    (ht : now - fi.startTime > config.xmlProcessing.processingTimeout) :
    rid ∉ (checkProcessedFiles s now).1.processingFiles.map Prod.fst ∧
    Event.markCompleted rid ∉ (checkProcessedFiles s now).2 := by
  obtain ⟨h1, h2⟩ := checkFilesLoop_timeout s.apiClient s.fs now rid fi habs ht
    s.processingFiles hmem hnd
  exact ⟨h1, h2⟩

/-- Witness for `watchTick_timeout_drop`: record 7's entry (registered at 0)
over an all-absent filesystem, scanned at 600001ms. -/
theorem watchTick_timeout_drop_witness :
    7 ∉ (checkProcessedFiles watchAbsentState 600001).1.processingFiles.map Prod.fst ∧
    Event.markCompleted 7 ∉ (checkProcessedFiles watchAbsentState 600001).2 :=
  watchTick_timeout_drop watchAbsentState 600001 7 entry7 (by decide) (by decide)
    (by decide) (by decide)

/-- Claim C10: when the processed artifact exists but reading it fails,
`checkIfAuthorized` returns `false` instead of propagating the error, so the
scan tick treats the entry as present-but-not-authorized and keeps it in the
registry for the next tick. -/
theorem unreadable_artifact_entry_kept (s : ExecState) (now rid : Nat) (fi : FileInfo)
    (hmem : (rid, fi) ∈ s.processingFiles)
    (hur : s.fs fi.processedPath = FileState.unreadable) :
    checkIfAuthorized s.fs fi.processedPath = false ∧
    fileExists s.fs fi.processedPath = true ∧
    (rid, fi) ∈ (checkProcessedFiles s now).1.processingFiles := by
  have hauth : checkIfAuthorized s.fs fi.processedPath = false := by
    simp [checkIfAuthorized, hur]
  have hex : fileExists s.fs fi.processedPath = true := by
    simp [fileExists, hur]
  have hkeep : (checkProcessedFilesEntry s.apiClient s.fs now rid fi).1 = false := by
    simp [checkProcessedFilesEntry, hex, hauth]
  exact ⟨hauth, hex,
    checkFilesLoop_keeps s.apiClient s.fs now rid fi hkeep s.processingFiles hmem⟩

/-- Witness for `unreadable_artifact_entry_kept` at `watchUnreadableState`. -/
theorem unreadable_artifact_entry_kept_witness :
    checkIfAuthorized watchUnreadableState.fs entry7.processedPath = false ∧
    fileExists watchUnreadableState.fs entry7.processedPath = true ∧
    (7, entry7) ∈ (checkProcessedFiles watchUnreadableState 12345).1.processingFiles :=
  unreadable_artifact_entry_kept watchUnreadableState 12345 7 entry7 (by decide) (by decide)

end Monitor
